import Mathlib

/-!
Verification of the holreg-database credit/vocabulary pipeline.

The definitions below are a shallow embedding of the Python sources:
  * `parse_names` and its helpers embed the credit-field parser of
    `normalize-credits.py` (function `parse_names` inside
    `normalize_multiple_people`);
  * the people/junction table operations embed the `INSERT OR IGNORE` +
    `SELECT` upsert logic of the same file;
  * later sections embed the JSON exporter (`scripts/db-to-json.py`),
    the vocabulary mapper (`scripts/data_processing/expand-mappings.py`),
    the tagger (`scripts/data_processing/apply-controlled-terms.py`),
    the AFI collector (`scripts/data_collection/afi_collector.py`) and the
    cleaning script (`clean-authors.py`).

SQLite tables are modelled as lists of rows; autoincrement ids are modelled
by a `nextId` counter carried in the table state.  Python dicts used as JSON
documents are modelled as association lists with a replace-or-append update.
-/

namespace Holreg

/-- Python `str.isdigit` restricted to ASCII: true iff the string is
nonempty and every character is a decimal digit. -/
def str_isdigit (s : String) : Bool :=
  !s.isEmpty && s.toList.all Char.isDigit

/-- Splitting a character list on the literal `|`, with the semantics of
Python `str.split('|')`: the empty input yields one empty part, doubled
pipes yield empty parts. -/
def splitOnPipe : List Char → List (List Char)
  | [] => [[]]
  | c :: rest =>
    let r := splitOnPipe rest
    if c = '|' then [] :: r
    else
      match r with
      | t :: ts => (c :: t) :: ts
      | [] => [[c]]

/-- Python `str.split('|')` on strings. -/
def py_split_pipe (s : String) : List String :=
  (splitOnPipe s.toList).map String.mk

/-- Python `str.strip()` on character lists: drop whitespace from both
ends. -/
def py_strip_chars (cs : List Char) : List Char :=
  ((cs.dropWhile Char.isWhitespace).reverse.dropWhile Char.isWhitespace).reverse

/-- Python `str.strip()` on strings. -/
def py_strip (s : String) : String :=
  String.mk (py_strip_chars s.toList)

/-- Split a character list at its last `|`, returning the characters before
and after it.  Returns `none` when no `|` occurs.  This is the search done
by the anchored regex `^(.+?)\|(\d+)$` of `parse_names`: since the suffix
group `(\d+)$` may contain no further pipe, the only candidate split point
is the last pipe of the token. -/
def lastPipeSplit : List Char → Option (List Char × List Char)
  | [] => none
  | c :: rest =>
    match lastPipeSplit rest with
    | some (b, a) => some (c :: b, a)
    | none => if c = '|' then some ([], rest) else none

/-- Embedding of `re.match(r'^(.+?)\|(\d+)$', part)` followed by
`(name_match.group(1).strip(), name_match.group(2))` in `parse_names`:
a token of the shape `<name>|<digits>` is split into name and id. -/
def matchNameId (part : String) : Option (String × String) :=
  match lastPipeSplit part.toList with
  | some (before, after) =>
    if !before.isEmpty && !after.isEmpty && after.all Char.isDigit then
      some (String.mk (py_strip_chars before), String.mk after)
    else none
  | none => none

/-- The body of the `for part in parts` loop of `parse_names`
(`normalize-credits.py`), acting on one already-stripped part:
empty parts are skipped; an all-digit part is attached as the id of the
last parsed pair when that id is still `None`; otherwise the part is
appended as a name (splitting an embedded `name|digits` token). -/
def parsePart (results : List (String × Option String)) (part : String) :
    List (String × Option String) :=
  if part.isEmpty then results
  else if str_isdigit part then
    match results.getLast? with
    | some (n, none) => results.dropLast ++ [(n, some part)]
    | _ => results
  else
    match matchNameId part with
    | some (n, i) => results ++ [(n, some i)]
    | none => results ++ [(part, none)]

/-- One loop iteration of `parse_names`: `part = part.strip()` then the
dispatch of `parsePart`. -/
def parseNamesStep (results : List (String × Option String)) (raw : String) :
    List (String × Option String) :=
  parsePart results (py_strip raw)

/-- Embedding of `parse_names` from `normalize-credits.py`.  The source
splits with `re.split(r'\s*\|\s*', field_value)` and then strips every
part; splitting on the literal `|` and stripping each part yields the same
stripped parts, so the split is modelled by `py_split_pipe` with the strip
done in `parseNamesStep`. -/
def parse_names (field_value : String) : List (String × Option String) :=
  if field_value.isEmpty then []
  else (py_split_pipe field_value).foldl parseNamesStep []

/-- The tokens obtained from a credit field by splitting on `|` and
trimming whitespace. -/
def credit_tokens (s : String) : List String :=
  (py_split_pipe s).map py_strip

/-- Number of tokens of a credit field that are non-empty and not composed
solely of digits. -/
def name_token_count (s : String) : Nat :=
  (credit_tokens s).countP (fun t => !t.isEmpty && !str_isdigit t)

/-- Row of the `people` table created by `normalize_multiple_people`
(`normalize-credits.py`): `person_id INTEGER PRIMARY KEY`,
`name TEXT UNIQUE NOT NULL`, `name_normalized TEXT`, `afi_id TEXT`. -/
structure Person where
  person_id : Nat
  name : String
  name_normalized : String
  afi_id : Option String
  deriving DecidableEq

/-- State of the `people` table: its rows plus the next rowid that an
insert would allocate. -/
structure PeopleTable where
  rows : List Person
  nextId : Nat
  deriving DecidableEq

/-- Embedding of
`INSERT OR IGNORE INTO people (name, name_normalized, afi_id) VALUES (?,?,?)`:
the insert is ignored exactly when a row with the same `name` exists
(`name` is `UNIQUE`), otherwise a fresh row is appended. -/
def insert_or_ignore_person (st : PeopleTable) (name norm : String)
    (afi : Option String) : PeopleTable :=
  if st.rows.any (fun r => r.name == name) then st
  else { rows := st.rows ++ [⟨st.nextId, name, norm, afi⟩], nextId := st.nextId + 1 }

/-- Embedding of `SELECT person_id FROM people WHERE name = ?` followed by
`fetchone()[0]`: the id of the first row whose name matches. -/
def select_person_id (st : PeopleTable) (name : String) : Option Nat :=
  (st.rows.find? (fun r => r.name == name)).map Person.person_id

/-- The person upsert of `normalize_multiple_people`: insert-or-ignore
followed by a select of the person id by exact name. -/
def upsert_person (st : PeopleTable) (name norm : String) (afi : Option String) :
    PeopleTable × Option Nat :=
  let st1 := insert_or_ignore_person st name norm afi
  (st1, select_person_id st1 name)

/-- Row of a role junction table (`film_directors`, `film_writers`,
`film_producers`, `film_cast_members`) created by
`normalize_multiple_people`: `PRIMARY KEY (film_id, person_id, position)`,
plus a `role_note` column the migration never sets. -/
structure RoleRow where
  film_id : Nat
  person_id : Nat
  position : Nat
  role_note : Option String
  deriving DecidableEq

/-- Embedding of
`INSERT OR IGNORE INTO film_<role> (film_id, person_id, position) VALUES (?,?,?)`:
a no-op when a row with the same primary key `(film_id, person_id, position)`
already exists, otherwise appends the row. -/
def insert_or_ignore_role (rows : List RoleRow) (film person pos : Nat) :
    List RoleRow :=
  if rows.any (fun r => r.film_id == film && r.person_id == person && r.position == pos)
  then rows
  else rows ++ [⟨film, person, pos, none⟩]

/-! ### JSON export (scripts/db-to-json.py) -/

/-- A Python/JSON value as the exporter manipulates them inside film
dicts. -/
inductive PyVal where
  | vNone : PyVal
  | vStr : String → PyVal
  | vInt : Int → PyVal
  | vList : List PyVal → PyVal
  | vObj : List (String × PyVal) → PyVal

/-- Whether a value is the Python `None`. -/
def pyIsNone : PyVal → Bool
  | PyVal.vNone => true
  | _ => false

/-- Python dict assignment `d[k] = v` modelled on association lists:
any existing binding of `k` is removed and the new binding appended.
Only lookups are proved about, so the position of the binding is
irrelevant. -/
def dictSet (d : List (String × PyVal)) (k : String) (v : PyVal) :
    List (String × PyVal) :=
  d.filter (fun kv => !(kv.1 == k)) ++ [(k, v)]

/-- The cleanup `film = \x7bk: v for k, v in film.items() if v is not None\x7d`
of the exporter: drop every binding whose value is `None`. -/
def dropNone (d : List (String × PyVal)) : List (String × PyVal) :=
  d.filter (fun kv => !pyIsNone kv.2)

/-- Python `str.lower()` restricted to ASCII case folding. -/
def py_lower (s : String) : String :=
  String.mk (s.toList.map Char.toLower)

/-- Python `sep.join(xs)`. -/
def joinSep (sep : String) : List String → String
  | [] => ""
  | [x] => x
  | x :: xs => x ++ sep ++ joinSep sep xs

/-- Row of the `films` table as the exporter reads it (`SELECT f.*`):
the columns the export logic inspects are explicit, the remaining scalar
columns are carried opaquely in `extra`. -/
structure FilmRow where
  id : Nat
  title : String
  release_year : Int
  literary_credits : Option String
  extra : List (String × PyVal)

/-- Row of `controlled_terms` (see `migrate-vocab.py`). -/
structure ControlledTerm where
  term_id : Nat
  term : String
  facet : String

/-- Row of `film_subjects_controlled` (see `migrate-vocab.py`):
`PRIMARY KEY (film_id, term_id)`. -/
structure SubjectAssoc where
  film_id : Nat
  term_id : Nat
  relevance_weight : Nat
  assignment_type : String
  deriving DecidableEq

/-- The database as seen by `export_films_normalized`. -/
structure ExportDB where
  films : List FilmRow
  people : List Person
  film_directors : List RoleRow
  film_writers : List RoleRow
  film_producers : List RoleRow
  controlled_terms : List ControlledTerm
  film_subjects_controlled : List SubjectAssoc

/-- The order in which the junction rows of one film reach the
`json_group_array` aggregate of the exporter.  The `ORDER BY fd.position`
of those scalar subqueries sits on an aggregate query with no `GROUP BY`,
so it sorts the single aggregated output row and has no effect on element
order; the rows are delivered by the scan of the primary-key index
`(film_id, person_id, position)`, i.e. within one film ascending by
`(person_id, position)`. -/
def roleIdxLe (a b : RoleRow) : Prop :=
  a.person_id < b.person_id ∨
    (a.person_id = b.person_id ∧ a.position ≤ b.position)

instance : DecidableRel roleIdxLe := fun a b => by
  unfold roleIdxLe; infer_instance

instance : IsTotal RoleRow roleIdxLe :=
  ⟨fun a b => by unfold roleIdxLe; omega⟩

instance : IsTrans RoleRow roleIdxLe :=
  ⟨fun a b c hab hbc => by unfold roleIdxLe at hab hbc ⊢; omega⟩

/-- `ORDER BY f.release_year, f.title` on film rows. -/
def filmOrder (a b : FilmRow) : Prop :=
  a.release_year < b.release_year ∨
    (a.release_year = b.release_year ∧ a.title ≤ b.title)

instance : DecidableRel filmOrder := fun a b => by
  unfold filmOrder; infer_instance

instance : IsTotal FilmRow filmOrder :=
  ⟨fun a b => by
    unfold filmOrder
    rcases lt_trichotomy a.release_year b.release_year with h | h | h
    · exact Or.inl (Or.inl h)
    · rcases le_total a.title b.title with ht | ht
      · exact Or.inl (Or.inr ⟨h, ht⟩)
      · exact Or.inr (Or.inr ⟨h.symm, ht⟩)
    · exact Or.inr (Or.inl h)⟩

instance : IsTrans FilmRow filmOrder :=
  ⟨fun a b c hab hbc => by
    unfold filmOrder at hab hbc ⊢
    rcases hab with h1 | ⟨h1, t1⟩ <;> rcases hbc with h2 | ⟨h2, t2⟩
    · exact Or.inl (h1.trans h2)
    · exact Or.inl (h2 ▸ h1)
    · exact Or.inl (h1 ▸ h2)
    · exact Or.inr ⟨h1.trans h2, t1.trans t2⟩⟩

/-- The junction rows of one film in the order the aggregate receives
them: filtered to the film, sorted by the primary-key index order
`(person_id, position)` (see `roleIdxLe`). -/
def roleRowsOrdered (rows : List RoleRow) (fid : Nat) : List RoleRow :=
  List.insertionSort roleIdxLe (rows.filter (fun r => r.film_id == fid))

/-- One scalar subquery of `export_films_normalized`: the rows of a role
junction table for one film in their index delivery order, joined to
people to produce `(name, position)` entries. -/
def roleEntries (people : List Person) (rows : List RoleRow) (fid : Nat) :
    List (String × Nat) :=
  (roleRowsOrdered rows fid).filterMap
    (fun r => (people.find? (fun p => p.person_id == r.person_id)).map
      (fun p => (p.name, r.position)))

/-- One entry of the controlled-subject list of a film document. -/
structure SubjectEntry where
  term : String
  facet : String
  weight : Nat

/-- `ORDER BY fsc.relevance_weight DESC, ct.term` on subject entries. -/
def subjOrder (a b : SubjectEntry) : Prop :=
  b.weight < a.weight ∨ (a.weight = b.weight ∧ a.term ≤ b.term)

instance : DecidableRel subjOrder := fun a b => by
  unfold subjOrder; infer_instance

/-- The controlled-subjects subquery of the exporter: associations of one
film joined to `controlled_terms`, ordered by descending weight then
term. -/
def subjectEntries (db : ExportDB) (fid : Nat) : List SubjectEntry :=
  List.insertionSort subjOrder
    ((db.film_subjects_controlled.filter (fun r => r.film_id == fid)).filterMap
      (fun r => (db.controlled_terms.find? (fun t => t.term_id == r.term_id)).map
        (fun t => ⟨t.term, t.facet, r.relevance_weight⟩)))

/-- A `(name, position)` role entry as the JSON object the exporter
emits. -/
def roleEntryObj (e : String × Nat) : PyVal :=
  PyVal.vObj [("name", PyVal.vStr e.1), ("position", PyVal.vInt e.2)]

/-- A controlled-subject entry as the JSON object the exporter emits. -/
def subjectEntryObj (e : SubjectEntry) : PyVal :=
  PyVal.vObj [("term", PyVal.vStr e.term), ("facet", PyVal.vStr e.facet),
    ("weight", PyVal.vInt e.weight)]

/-- An optional text column as a Python value. -/
def optStr : Option String → PyVal
  | some s => PyVal.vStr s
  | none => PyVal.vNone

/-- The `authors` list of a film document: split `literary_credits` on the
pipe and strip each part when a pipe occurs, else a singleton or empty
list.  Mirrors lines 142-145 of `scripts/db-to-json.py`. -/
def authors_field (lc : Option String) : List String :=
  match lc with
  | some s =>
    if !s.isEmpty && s.toList.contains '|' then (py_split_pipe s).map py_strip
    else if !s.isEmpty then [s] else []
  | none => []

/-- Assembly of one film document by `export_films_normalized`:
the film row scalars, the three role lists (plus their joined string
forms), the controlled subjects, the authors list, and finally the removal
of `None`-valued fields.  The `json_group_array` subqueries always return
a JSON array text (possibly `[]`, which is truthy in Python), so the
then-branches of the `directors_json` checks are the ones modelled. -/
def exportFilmDoc (db : ExportDB) (f : FilmRow) : List (String × PyVal) :=
  let base := [("id", PyVal.vInt f.id), ("title", PyVal.vStr f.title),
    ("release_year", PyVal.vInt f.release_year),
    ("literary_credits", optStr f.literary_credits)] ++ f.extra
  let dirs := roleEntries db.people db.film_directors f.id
  let wrts := roleEntries db.people db.film_writers f.id
  let prds := roleEntries db.people db.film_producers f.id
  let d1 := dictSet base "directors" (PyVal.vList (dirs.map roleEntryObj))
  let d2 := dictSet d1 "director" (PyVal.vStr (joinSep " & " (dirs.map Prod.fst)))
  let d3 := dictSet d2 "writers" (PyVal.vList (wrts.map roleEntryObj))
  let d4 := dictSet d3 "writer" (PyVal.vStr (joinSep " & " (wrts.map Prod.fst)))
  let d5 := dictSet d4 "producers" (PyVal.vList (prds.map roleEntryObj))
  let d6 := dictSet d5 "producer" (PyVal.vStr (joinSep " & " (prds.map Prod.fst)))
  let subj := subjectEntries db f.id
  let d7 := dictSet d6 "controlled_subjects" (PyVal.vList (subj.map subjectEntryObj))
  let d8 := dictSet d7 "authors" (PyVal.vList ((authors_field f.literary_credits).map PyVal.vStr))
  dropNone d8

/-- `SELECT ... FROM films f ORDER BY f.release_year, f.title`. -/
def exportFilmsOrdered (db : ExportDB) : List FilmRow :=
  List.insertionSort filmOrder db.films

/-- The film export of `export_films_normalized`: one document per film,
in `(release_year, title)` order. -/
def export_films_normalized (db : ExportDB) : List (List (String × PyVal)) :=
  (exportFilmsOrdered db).map (exportFilmDoc db)

/-! ### Vocabulary mapping (scripts/data_processing/expand-mappings.py) -/

/-- The `direct_mappings` dict of `create_expanded_mappings`, in source
order. -/
def direct_mappings : List (String × String) :=
  [("Children", "Children"), ("Mothers", "Motherhood"),
   ("Fathers", "Fatherhood"), ("Brothers", "Brothers"),
   ("Sisters", "Sisters"), ("Weddings", "Weddings"),
   ("Nurses", "Nurses"), ("Ministers", "Ministers"),
   ("Artists", "Artists"), ("Farmers", "Farmers"),
   ("Servants", "Servants"), ("Trials", "Trials"),
   ("Kidnapping", "Kidnapping"), ("Death and dying", "Death and dying"),
   ("Childbirth", "Childbirth"), ("Divorce", "Divorce"),
   ("Courtship", "Courtship")]

/-- One configured pattern mapping: the regex (abstracted as a Boolean
matcher on the lowercased subject, since the Python regex engine is not
part of this repository), the controlled term, and the confidence. -/
abbrev MapPattern : Type := (String → Bool) × String × ℚ

/-- Whether the token contains a double dash (the compound-subject test
of `create_expanded_mappings`). -/
def has_double (c : Char) : List Char → Bool
  | a :: b :: rest => (a == c && b == c) || has_double c (b :: rest)
  | _ => false

/-- The characters of a token before its first double dash: Python
`subject.split('--')[0]`. -/
def before_double_dash : List Char → List Char
  | a :: b :: rest =>
    if a = '-' ∧ b = '-' then []
    else a :: before_double_dash (b :: rest)
  | rest => rest

/-- The per-subject body of `create_expanded_mappings`: try the direct
mapping (only if its target is a known controlled term), then each
pattern in list order (taking the first whose matcher fires and whose
term is known), then the compound-subject fallback on a double dash.
Returns the `(afi_subject, controlled_term, confidence)` row appended to
`mappings`, or `none` when the subject stays unmapped. -/
def map_subject (controlled : List String) (patterns : List MapPattern)
    (subject : String) : Option (String × String × ℚ) :=
  let subject_lower := py_lower subject
  if (match direct_mappings.lookup subject with
      | some t => controlled.contains t
      | none => false) then
    (direct_mappings.lookup subject).map (fun t => (subject, t, 1))
  else
    match patterns.find? (fun p => p.1 subject_lower && controlled.contains p.2.1) with
    | some p => some (subject, p.2.1, p.2.2)
    | none =>
      if has_double '-' subject.toList then
        let base := String.mk (before_double_dash subject.toList)
        if controlled.contains base then some (subject, base, 0.9)
        else match direct_mappings.lookup base with
          | some t => if controlled.contains t then some (subject, t, 0.85) else none
          | none => none
      else none

/-- `create_expanded_mappings`: the mapping rows collected over the
unmapped subjects (each subject contributes at most one row). -/
def create_expanded_mappings (controlled : List String)
    (patterns : List MapPattern) (unmapped : List String) :
    List (String × String × ℚ) :=
  unmapped.filterMap (map_subject controlled patterns)

/-! ### Tagger (scripts/data_processing/apply-controlled-terms.py) -/

/-- The relevance weight of `apply_controlled_terms`: with mapping
confidence at least 0.9 the weight is 3 when the token occurs more than
once in the subject list of the film and 2 otherwise; with lower
confidence it is 2 when the token recurs and 1 otherwise. -/
def relevance_weight (confidence : ℚ) (occurrences : Nat) : Nat :=
  if confidence ≥ 0.9 then (if occurrences > 1 then 3 else 2)
  else (if occurrences > 1 then 2 else 1)

/-- The subject tokens of one film:
`[s.strip() for s in subjects.split('|') if s.strip()]`. -/
def film_subject_tokens (subjects : String) : List String :=
  ((py_split_pipe subjects).map py_strip).filter (fun t => !t.isEmpty)

/-- One update of the in-memory `term_assignments` dict: assign the
relevance when the term is new or the stored relevance is lower. -/
def assign_term (acc : List (Nat × Nat)) (term rel : Nat) : List (Nat × Nat) :=
  match acc.lookup term with
  | none => acc ++ [(term, rel)]
  | some r =>
    if r < rel then acc.map (fun q => if q.1 == term then (term, rel) else q)
    else acc

/-- The per-film assignment loop of `apply_controlled_terms`: fold the
subject tokens, looking each up in the mapping dict and keeping the
maximal relevance per term. -/
def term_assignments (mappings : List (String × Nat × ℚ))
    (subjects : List String) : List (Nat × Nat) :=
  subjects.foldl
    (fun acc subject =>
      match mappings.lookup subject with
      | some (term_id, confidence) =>
        assign_term acc term_id (relevance_weight confidence (subjects.count subject))
      | none => acc) []

/-- The insert of one `(film, term, relevance)` assignment into
`film_subjects_controlled`: on primary-key conflict `(film_id, term_id)`
the stored weight is raised to the maximum of old and new
(`SET relevance_weight = MAX(relevance_weight, ?)`). -/
def upsert_film_subject (tbl : List SubjectAssoc) (film term rel : Nat) :
    List SubjectAssoc :=
  if tbl.any (fun r => r.film_id == film && r.term_id == term) then
    tbl.map (fun r =>
      if r.film_id == film && r.term_id == term then
        { r with relevance_weight := max r.relevance_weight rel }
      else r)
  else tbl ++ [⟨film, term, rel, "auto_mapped"⟩]

/-- Tagging one film: compute its term assignments and upsert each into
the association table. -/
def apply_film_terms (tbl : List SubjectAssoc)
    (mappings : List (String × Nat × ℚ)) (film_id : Nat) (subjects : String) :
    List SubjectAssoc :=
  (term_assignments mappings (film_subject_tokens subjects)).foldl
    (fun t p => upsert_film_subject t film_id p.1 p.2) tbl

/-! ### AFI collector (scripts/data_collection/afi_collector.py) -/

/-- `doc.get(key, default)` for string-valued fields. -/
def doc_get_str (doc : List (String × PyVal)) (key dflt : String) : String :=
  match doc.lookup key with
  | some (PyVal.vStr s) => s
  | _ => dflt

/-- `doc.get(key, [])` for list-of-string fields. -/
def doc_get_strlist (doc : List (String × PyVal)) (key : String) : List String :=
  match doc.lookup key with
  | some (PyVal.vList vs) =>
    vs.filterMap (fun v => match v with | PyVal.vStr s => some s | _ => none)
  | _ => []

/-- The numeric value of a nonempty run of decimal digits. -/
def digits_to_nat (cs : List Char) : Nat :=
  cs.foldl (fun n c => 10 * n + (c.toNat - '0'.toNat)) 0

/-- Python `int(s)` on strings: strip whitespace, allow one sign, then
require a nonempty digit run; anything else raises, modelled as `none`. -/
def py_int? (s : String) : Option Int :=
  match py_strip_chars s.toList with
  | [] => none
  | '-' :: rest =>
    if !rest.isEmpty && rest.all Char.isDigit then some (-(digits_to_nat rest : Int))
    else none
  | '+' :: rest =>
    if !rest.isEmpty && rest.all Char.isDigit then some ((digits_to_nat rest : Int))
    else none
  | cs =>
    if cs.all Char.isDigit then some ((digits_to_nat cs : Int)) else none

/-- One search result, holding its `Document` dict. -/
structure SearchResult where
  Document : List (String × PyVal)

/-- `title.strip().lower()`, the normalization `extract_film_data` applies
to both the target and the candidate title before comparing. -/
def title_norm (s : String) : String := py_lower (py_strip s)

/-- The match test of the result loop of `extract_film_data`: normalized
titles equal, and the result year parses to an int equal to the target
year. -/
def match_result (target_title : String) (target_year : Int)
    (r : SearchResult) : Bool :=
  (title_norm (doc_get_str r.Document "MovieName" "") == title_norm target_title)
    && (match py_int? (doc_get_str r.Document "ReleaseYear" "") with
        | some y => y == target_year
        | none => false)

/-- The columns of the `films` table filled by `save_film_data`. -/
def films_columns : List String :=
  ["afi_movie_id", "title", "release_year", "release_date", "director",
   "director_id", "writer", "producer", "genre", "sub_genre", "film_type",
   "subjects", "literary_credits", "source_citations", "filming_location"]

/-- The `film_data` dict built for an exactly matching result
(lines 149-168 of `afi_collector.py`). -/
def extract_fields (doc : List (String × PyVal)) : List (String × PyVal) :=
  [("afi_movie_id", ((doc.lookup "MovieId").getD PyVal.vNone)),
   ("title", PyVal.vStr (doc_get_str doc "MovieName" "")),
   ("release_year",
     match py_int? (doc_get_str doc "ReleaseYear" "") with
     | some y => PyVal.vInt y
     | none => PyVal.vNone),
   ("release_date", ((doc.lookup "ReleaseDate").getD PyVal.vNone)),
   ("director", ((doc.lookup "Director").getD PyVal.vNone)),
   ("director_id", ((doc.lookup "DirectorId").getD PyVal.vNone)),
   ("writer", ((doc.lookup "Writer").getD PyVal.vNone)),
   ("producer", ((doc.lookup "Producer").getD PyVal.vNone)),
   ("genre", PyVal.vStr (joinSep "|" (doc_get_strlist doc "Genre"))),
   ("sub_genre", ((doc.lookup "SubGenre").getD PyVal.vNone)),
   ("film_type", ((doc.lookup "FilmType").getD PyVal.vNone)),
   ("subjects", ((doc.lookup "Subjects").getD PyVal.vNone)),
   ("literary_credits", ((doc.lookup "LiteraryNoteCredits").getD PyVal.vNone)),
   ("source_citations", ((doc.lookup "SourceCitations").getD PyVal.vNone)),
   ("filming_location", ((doc.lookup "NoteGeo").getD PyVal.vNone)),
   ("production_companies",
     PyVal.vList ((doc_get_strlist doc "ProductionCompany").map PyVal.vStr)),
   ("distribution_companies",
     PyVal.vList ((doc_get_strlist doc "DistributionCompany").map PyVal.vStr)),
   ("cast_data", ((doc.lookup "Casts").getD (PyVal.vStr "")))]

/-- `extract_film_data`: `none` when the search response lacks the result
list; otherwise the film data of the first result passing the exact-match
test, or `none` when no result passes. -/
def extract_film_data (search_result : Option (List SearchResult))
    (target_title : String) (target_year : Int) :
    Option (List (String × PyVal)) :=
  match search_result with
  | none => none
  | some results =>
    match results.find? (match_result target_title target_year) with
    | some r => some (extract_fields r.Document)
    | none => none

/-- One row of the collector `films` table: a rowid plus the inserted
column values. -/
structure AFIFilmRow where
  id : Nat
  fields : List (String × PyVal)

/-- The collector database: films, production companies
`(film_id, company_name, company_type)`, and the next rowid. -/
structure AFIDB where
  films : List AFIFilmRow
  production_companies : List (Nat × String × String)
  nextId : Nat

/-- `INSERT OR REPLACE INTO films ...` keyed on the `UNIQUE`
`afi_movie_id` (a NULL id never conflicts), followed by the
production/distribution company inserts with `film_id = lastrowid`. -/
def save_film_data (db : AFIDB) (fd : List (String × PyVal)) : AFIDB :=
  let afi := (fd.lookup "afi_movie_id").getD PyVal.vNone
  let keep := fun (f : AFIFilmRow) =>
    match (f.fields.lookup "afi_movie_id").getD PyVal.vNone, afi with
    | PyVal.vStr a, PyVal.vStr b => !(a == b)
    | _, _ => true
  let row_fields := films_columns.map (fun k => (k, (fd.lookup k).getD PyVal.vNone))
  let newId := db.nextId
  let prods := (doc_get_strlist fd "production_companies").map
    (fun c => (newId, c, "production"))
  let dists := (doc_get_strlist fd "distribution_companies").map
    (fun c => (newId, c, "distribution"))
  { films := db.films.filter keep ++ [⟨newId, row_fields⟩],
    production_companies := db.production_companies ++ prods ++ dists,
    nextId := newId + 1 }

/-- One iteration of `collect_films_from_list` after the search: save the
extracted data when the exact match succeeded, otherwise leave the
database untouched (the item is only recorded in the printed failure
list). -/
def collect_step (db : AFIDB) (search_result : Option (List SearchResult))
    (title : String) (year : Int) : AFIDB :=
  match extract_film_data search_result title year with
  | some fd => save_film_data db fd
  | none => db

/-! ### Cleaning script (clean-authors.py) -/

/-- Row of the `films` table as `clean_database` touches it: only
`literary_credits` and `writer` are ever updated, the other columns ride
along in `extra`. -/
structure CFilm where
  id : Nat
  literary_credits : Option String
  writer : Option String
  extra : List (String × PyVal)

/-- SQL `TRIM` (default form): remove space characters from both ends. -/
def sql_trim (s : String) : String :=
  String.mk (((s.toList.dropWhile (· = ' ')).reverse.dropWhile (· = ' ')).reverse)

/-- Python `re.search` of pattern pipe-whitespace-digits-end: the string
ends with a pipe, optional whitespace, then at least one digit. -/
def ends_pipe_ws_digits (s : String) : Bool :=
  let rcs := s.toList.reverse
  let ds := rcs.takeWhile Char.isDigit
  !ds.isEmpty &&
    (match (rcs.dropWhile Char.isDigit).dropWhile Char.isWhitespace with
     | '|' :: _ => true
     | _ => false)

/-- Python `re.sub` removing a trailing whitespace-pipe-whitespace-digits
suffix when present, else the string unchanged. -/
def strip_pipe_id_suffix (s : String) : String :=
  let rcs := s.toList.reverse
  let ds := rcs.takeWhile Char.isDigit
  if ds.isEmpty then s
  else
    match (rcs.dropWhile Char.isDigit).dropWhile Char.isWhitespace with
    | '|' :: r3 => String.mk ((r3.dropWhile Char.isWhitespace).reverse)
    | _ => s

/-- Python `split('||')` on characters, non-overlapping left to right. -/
def splitOnDoublePipe : List Char → List (List Char)
  | [] => [[]]
  | '|' :: '|' :: rest => [] :: splitOnDoublePipe rest
  | c :: rest =>
    match splitOnDoublePipe rest with
    | t :: ts => (c :: t) :: ts
    | [] => [[c]]

/-- A pending change of `clean_database`:
`(field, film id, old value, new value)`. -/
def CChange : Type := String × Nat × String × String

/-- Step 1 of `clean_database`: trailing-space fixes on
`literary_credits`. -/
def clean_step1 (films : List CFilm) : List CChange :=
  films.filterMap (fun f =>
    match f.literary_credits with
    | some lc =>
      if !(lc == sql_trim lc) then some ("literary_credits", f.id, lc, py_strip lc)
      else none
    | none => none)

/-- Step 2 of `clean_database`: co-author format standardization on
pipe-separated `literary_credits`, skipping values that end in an AFI id
(handled by step 4 logic). -/
def clean_step2 (films : List CFilm) : List CChange :=
  films.filterMap (fun f =>
    match f.literary_credits with
    | some lc =>
      if lc.toList.contains '|' then
        if ends_pipe_ws_digits lc then none
        else
          let authors := ((py_split_pipe lc).map py_strip).filter (fun a => !a.isEmpty)
          let new := joinSep " | " authors
          if !(lc == new) then some ("literary_credits", f.id, lc, new) else none
      else none
    | none => none)

/-- Step 3 of `clean_database`: double-pipe fixes on `literary_credits`. -/
def clean_step3 (films : List CFilm) : List CChange :=
  films.filterMap (fun f =>
    match f.literary_credits with
    | some lc =>
      if has_double '|' lc.toList then
        let parts := ((splitOnDoublePipe lc.toList).map
          (fun cs => py_strip (String.mk cs))).filter (fun p => !p.isEmpty)
        some ("literary_credits", f.id, lc, joinSep " | " parts)
      else none
    | none => none)

/-- Step 4 of `clean_database`: removal of trailing AFI ids from the
`writer` field. -/
def clean_step4 (films : List CFilm) : List CChange :=
  films.filterMap (fun f =>
    match f.writer with
    | some w =>
      if w.toList.contains '|' then
        let new := py_strip (strip_pipe_id_suffix w)
        if !(w == new) then some ("writer", f.id, w, new) else none
      else none
    | none => none)

/-- The full change list previewed (and, without dry run, applied) by
`clean_database`. -/
def compute_changes (films : List CFilm) : List CChange :=
  clean_step1 films ++ clean_step2 films ++ clean_step3 films ++ clean_step4 films

/-- `UPDATE films SET <field> = ? WHERE id = ?` for one change. -/
def apply_change (films : List CFilm) (ch : CChange) : List CFilm :=
  films.map (fun f =>
    if f.id == ch.2.1 then
      if ch.1 == "literary_credits" then { f with literary_credits := some ch.2.2.2 }
      else if ch.1 == "writer" then { f with writer := some ch.2.2.2 }
      else f
    else f)

/-- Applying every computed change in order. -/
def apply_changes (films : List CFilm) (chs : List CChange) : List CFilm :=
  chs.foldl apply_change films

/-- `clean_database`: compute the change list; with `dry_run` the films
table is only read (the backup table and the UPDATE loop are inside
`if not dry_run`), otherwise every change is applied.  Returns the new
films table and the change count the script reports. -/
def clean_database (films : List CFilm) (dry_run : Bool) : List CFilm × Nat :=
  let changes := compute_changes films
  if dry_run then (films, changes.length)
  else (apply_changes films changes, changes.length)

/-! ### Theorems -/

/-- Each loop iteration of the credit parser adds exactly one pair for a
stripped part that is nonempty and not all digits, and none otherwise. -/
theorem parsePart_length (acc : List (String × Option String)) (part : String) :
    (parsePart acc part).length
      = acc.length + (if (!part.isEmpty && !str_isdigit part) = true then 1 else 0) := by
  unfold parsePart
  by_cases h1 : part.isEmpty = true
  · simp [h1]
  · rw [Bool.not_eq_true] at h1
    by_cases h2 : str_isdigit part = true
    · rcases hl : acc.getLast? with _ | ⟨n, oi⟩
      · simp [h1, h2, hl]
      · rcases oi with _ | i
        · have hne : acc ≠ [] := by
            intro e; subst e; simp at hl
          have hlen : 0 < acc.length := List.length_pos.mpr hne
          simp [h1, h2, hl, List.length_dropLast]
          omega
        · simp [h1, h2, hl]
    · rw [Bool.not_eq_true] at h2
      rcases hm : matchNameId part with _ | ⟨n, i⟩ <;> simp [h1, h2, hm]

/-- Folding the parser loop over a part list counts the qualifying
parts. -/
theorem foldl_parse_length (parts : List String)
    (acc : List (String × Option String)) :
    (parts.foldl parseNamesStep acc).length
      = acc.length
        + parts.countP (fun t => !(py_strip t).isEmpty && !str_isdigit (py_strip t)) := by
  induction parts generalizing acc with
  | nil => simp
  | cons p ps ih =>
    rw [List.foldl_cons, List.countP_cons, ih, parseNamesStep, parsePart_length]
    by_cases hc : (!(py_strip p).isEmpty && !str_isdigit (py_strip p)) = true
    · simp [hc]; omega
    · simp [hc]

/-- C1: for every input to the credit-field parser, the number of
returned (name, id) pairs equals the number of tokens that are nonempty
and not composed solely of digits after splitting the input on the pipe
delimiter and trimming whitespace. -/
theorem parse_names_pair_count (s : String) :
    (parse_names s).length = name_token_count s := by
  unfold parse_names
  by_cases h : s.isEmpty = true
  · have hs : s = "" := (String.isEmpty_iff s).mp h
    subst hs
    decide
  · rw [if_neg h, foldl_parse_length]
    simp only [name_token_count, credit_tokens, List.countP_map, List.length_nil,
      Nat.zero_add]
    rfl

/-- C10: in the credit-field parser loop, an all-digit token never adds a
name; it is attached as the id of the immediately preceding pair exactly
when that pair has no id yet, it is dropped when no pair has been parsed
yet, and it never overwrites an existing id. -/
theorem parse_digit_token (acc : List (String × Option String)) (part : String)
    (hd : str_isdigit part = true) :
    (parsePart acc part).map Prod.fst = acc.map Prod.fst
    ∧ (∀ n, acc.getLast? = some (n, none) →
        parsePart acc part = acc.dropLast ++ [(n, some part)])
    ∧ (acc.getLast? = none → parsePart acc part = acc)
    ∧ (∀ n i, acc.getLast? = some (n, some i) → parsePart acc part = acc) := by
  have hne : part.isEmpty = false := by
    rcases he : part.isEmpty with _ | _
    · rfl
    · rw [str_isdigit, he] at hd; simp at hd
  refine ⟨?_, ?_, ?_, ?_⟩
  · rcases hl : acc.getLast? with _ | ⟨n, oi⟩
    · simp [parsePart, hne, hd, hl]
    · rcases oi with _ | i
      · have hne2 : acc ≠ [] := by intro e; subst e; simp at hl
        have hacc := List.dropLast_append_getLast hne2
        have hlast : acc.getLast hne2 = (n, none) := by
          have h2 := List.getLast?_eq_getLast acc hne2
          rw [hl] at h2
          exact (Option.some.inj h2).symm
        simp only [parsePart, hne, hd, hl]
        simp only [Bool.false_eq_true, if_false, if_true]
        conv_rhs => rw [← hacc]
        simp [hlast]
      · simp [parsePart, hne, hd, hl]
  · intro n hl; simp [parsePart, hne, hd, hl]
  · intro hl; simp [parsePart, hne, hd, hl]
  · intro n i hl; simp [parsePart, hne, hd, hl]

/-- Witness for the digit-token behaviour at a concrete input. -/
theorem parse_digit_token_witness :
    parsePart [("A", none)] "12" = [("A", some "12")] := by
  have h := parse_digit_token [("A", none)] "12" (by decide)
  simpa using h.2.1 "A" rfl

/-- After the insert-or-ignore step a row with the given name always
exists. -/
theorem insert_person_has_name (st : PeopleTable) (name norm : String)
    (afi : Option String) :
    (insert_or_ignore_person st name norm afi).rows.any
      (fun r => r.name == name) = true := by
  unfold insert_or_ignore_person
  by_cases h : st.rows.any (fun r => r.name == name) = true
  · simp [h]
  · rw [if_neg h]
    simp

/-- C2: the person upsert is idempotent: run twice for the same exact
name it returns the same identifier both times and leaves exactly one row
with that name, assuming the UNIQUE constraint held beforehand (at most
one row with the name). -/
theorem upsert_person_idempotent (st : PeopleTable) (name norm : String)
    (afi : Option String)
    (h : st.rows.countP (fun r => r.name == name) ≤ 1) :
    (upsert_person (upsert_person st name norm afi).1 name norm afi).2
        = (upsert_person st name norm afi).2
    ∧ (upsert_person st name norm afi).2.isSome = true
    ∧ (upsert_person (upsert_person st name norm afi).1 name norm afi).1.rows.countP
        (fun r => r.name == name) = 1 := by
  have hany : (insert_or_ignore_person st name norm afi).rows.any
      (fun r => r.name == name) = true := insert_person_has_name st name norm afi
  have noop : ∀ st2 : PeopleTable, st2.rows.any (fun r => r.name == name) = true →
      insert_or_ignore_person st2 name norm afi = st2 := by
    intro st2 h2
    unfold insert_or_ignore_person
    rw [if_pos h2]
  have hfix : insert_or_ignore_person (insert_or_ignore_person st name norm afi)
      name norm afi = insert_or_ignore_person st name norm afi :=
    noop _ hany
  have hcount : (insert_or_ignore_person st name norm afi).rows.countP
      (fun r => r.name == name) = 1 := by
    unfold insert_or_ignore_person
    by_cases hb : st.rows.any (fun r => r.name == name) = true
    · rw [if_pos hb]
      have hpos : 0 < st.rows.countP (fun r => r.name == name) :=
        List.countP_pos_iff.mpr (List.any_eq_true.mp hb)
      omega
    · rw [if_neg hb]
      have hzero : st.rows.countP (fun r => r.name == name) = 0 := by
        rw [List.countP_eq_zero]
        intro a ha hpa
        exact hb (List.any_eq_true.mpr ⟨a, ha, hpa⟩)
      simp [List.countP_append, hzero, List.countP_cons]
  have hsome : (select_person_id (insert_or_ignore_person st name norm afi)
      name).isSome = true := by
    unfold select_person_id
    have hfind : (List.find? (fun r => r.name == name)
        (insert_or_ignore_person st name norm afi).rows).isSome = true :=
      List.find?_isSome.mpr (List.any_eq_true.mp hany)
    obtain ⟨x, hx⟩ := Option.isSome_iff_exists.mp hfind
    simp [hx]
  have e1 : upsert_person st name norm afi
      = (insert_or_ignore_person st name norm afi,
         select_person_id (insert_or_ignore_person st name norm afi) name) := rfl
  have e2 : upsert_person (insert_or_ignore_person st name norm afi) name norm afi
      = (insert_or_ignore_person (insert_or_ignore_person st name norm afi) name norm afi,
         select_person_id
           (insert_or_ignore_person (insert_or_ignore_person st name norm afi) name norm afi)
           name) := rfl
  rw [e1, e2, hfix]
  exact ⟨rfl, hsome, hcount⟩

/-- Witness for the person upsert idempotence on an initially empty
table. -/
theorem upsert_person_idempotent_witness :
    (upsert_person (upsert_person ⟨[], 0⟩ "Ada Lovelace" "ada lovelace" none).1
        "Ada Lovelace" "ada lovelace" none).2
      = (upsert_person (⟨[], 0⟩ : PeopleTable) "Ada Lovelace" "ada lovelace" none).2
    ∧ (upsert_person (⟨[], 0⟩ : PeopleTable) "Ada Lovelace" "ada lovelace"
        none).2.isSome = true
    ∧ (upsert_person (upsert_person ⟨[], 0⟩ "Ada Lovelace" "ada lovelace" none).1
        "Ada Lovelace" "ada lovelace" none).1.rows.countP
        (fun r => r.name == "Ada Lovelace") = 1 :=
  upsert_person_idempotent ⟨[], 0⟩ "Ada Lovelace" "ada lovelace" none (by decide)

/-- C3: inserting an association row for a (film, person, position)
triple that already exists in the junction table is a no-op: the table is
returned unchanged, so both its row count and its contents are
preserved. -/
theorem role_insert_idempotent (rows : List RoleRow) (film person pos : Nat)
    (h : ∃ r ∈ rows, r.film_id = film ∧ r.person_id = person ∧ r.position = pos) :
    insert_or_ignore_role rows film person pos = rows := by
  unfold insert_or_ignore_role
  rw [if_pos]
  rw [List.any_eq_true]
  obtain ⟨r, hr, h1, h2, h3⟩ := h
  exact ⟨r, hr, by simp [h1, h2, h3]⟩

/-- Witness for the junction no-op at a concrete table. -/
theorem role_insert_idempotent_witness :
    insert_or_ignore_role [⟨3, 7, 1, none⟩] 3 7 1 = [⟨3, 7, 1, none⟩] :=
  role_insert_idempotent [⟨3, 7, 1, none⟩] 3 7 1
    ⟨⟨3, 7, 1, none⟩, List.mem_singleton.mpr rfl, rfl, rfl, rfl⟩

/-- A key filtered out of an association list is no longer found. -/
theorem lookup_filter_self (d : List (String × PyVal)) (k : String) :
    (d.filter (fun kv => !(kv.1 == k))).lookup k = none := by
  induction d with
  | nil => simp
  | cons kv rest ih =>
    obtain ⟨k1, v1⟩ := kv
    by_cases h : (k1 == k) = true
    · simp [List.filter_cons, h, ih]
    · rw [Bool.not_eq_true] at h
      have h2 : (k == k1) = false := by
        rw [beq_eq_false_iff_ne] at h ⊢
        exact fun e => h e.symm
      simp [List.filter_cons, h, List.lookup_cons, h2, ih]

/-- Filtering out one key leaves lookups of other keys unchanged. -/
theorem lookup_filter_other (d : List (String × PyVal)) (k k' : String)
    (hne : (k' == k) = false) :
    (d.filter (fun kv => !(kv.1 == k))).lookup k' = d.lookup k' := by
  induction d with
  | nil => simp
  | cons kv rest ih =>
    obtain ⟨k1, v1⟩ := kv
    by_cases h : (k1 == k) = true
    · have hk1 : k1 = k := by simpa using h
      have h3 : (k' == k1) = false := by rw [hk1]; exact hne
      simp [List.filter_cons, h, List.lookup_cons, h3, ih]
    · rw [Bool.not_eq_true] at h
      rcases hkk : (k' == k1) with _ | _
      · simp [List.filter_cons, h, List.lookup_cons, hkk, ih]
      · simp [List.filter_cons, h, List.lookup_cons, hkk]

/-- Looking up the key just set by `dictSet` yields the new value. -/
theorem lookup_dictSet_self (d : List (String × PyVal)) (k : String) (v : PyVal) :
    (dictSet d k v).lookup k = some v := by
  unfold dictSet
  rw [List.lookup_append, lookup_filter_self]
  simp [List.lookup_cons]

/-- Setting one key with `dictSet` leaves lookups of other keys
unchanged. -/
theorem lookup_dictSet_other (d : List (String × PyVal)) (k k' : String)
    (v : PyVal) (hne : (k' == k) = false) :
    (dictSet d k v).lookup k' = d.lookup k' := by
  unfold dictSet
  rw [List.lookup_append, lookup_filter_other d k k' hne]
  rcases hl : d.lookup k' with _ | w <;> simp [List.lookup_cons, hne]

/-- The `None`-dropping cleanup preserves lookups of keys bound to
non-`None` values. -/
theorem lookup_dropNone (d : List (String × PyVal)) (k : String) (v : PyVal)
    (hv : pyIsNone v = false) (h : d.lookup k = some v) :
    (dropNone d).lookup k = some v := by
  induction d with
  | nil => simp at h
  | cons kv rest ih =>
    obtain ⟨k1, v1⟩ := kv
    rw [List.lookup_cons] at h
    by_cases hk : (k == k1) = true
    · rw [hk] at h
      simp only [] at h
      have hv1 : v1 = v := Option.some.inj h
      subst hv1
      simp [dropNone, List.filter_cons, hv, List.lookup_cons, hk]
    · rw [Bool.not_eq_true] at hk
      rw [hk] at h
      simp only [] at h
      rcases hn : pyIsNone v1 with _ | _
      · simpa [dropNone, List.filter_cons, hn, List.lookup_cons, hk] using ih h
      · simpa [dropNone, List.filter_cons, hn] using ih h

/-- C4: exporting a film that has no controlled-term association rows
produces a `controlled_subjects` field that is present and bound to the
empty list; it is neither omitted nor `None`, while every `None`-valued
field of the document is omitted. -/
theorem export_empty_controlled_subjects (db : ExportDB) (f : FilmRow)
    (h : db.film_subjects_controlled.filter (fun r => r.film_id == f.id) = []) :
    (exportFilmDoc db f).lookup "controlled_subjects" = some (PyVal.vList [])
    ∧ (∀ kv ∈ exportFilmDoc db f, pyIsNone kv.2 = false) := by
  have hsub : subjectEntries db f.id = [] := by
    unfold subjectEntries
    rw [h]
    rfl
  constructor
  · show (dropNone _).lookup _ = _
    refine lookup_dropNone _ _ _ rfl ?_
    rw [lookup_dictSet_other _ _ _ _ (by decide), hsub]
    exact lookup_dictSet_self _ _ _
  · intro kv hkv
    have hmem := List.mem_filter.mp hkv
    simpa using hmem.2

/-- Witness for the empty controlled-subjects export on a one-film
database with no associations. -/
theorem export_empty_controlled_subjects_witness :
    (exportFilmDoc ⟨[], [], [], [], [], [], []⟩
      ⟨1, "T", 1930, none, []⟩).lookup "controlled_subjects"
      = some (PyVal.vList []) :=
  (export_empty_controlled_subjects ⟨[], [], [], [], [], [], []⟩
    ⟨1, "T", 1930, none, []⟩ rfl).1

/-- C5 counterexample: a film with two directors where the later-billed
person has the smaller person id.  The index delivery order puts the
position-2 entry before the position-1 entry, so the directors list of the
exported document is not in ascending stored-position order. -/
theorem export_role_position_counterexample :
    ((roleEntries [⟨2, "B", "b", none⟩, ⟨9, "A", "a", none⟩]
        [⟨1, 9, 1, none⟩, ⟨1, 2, 2, none⟩] 1).map Prod.snd) = [2, 1]
    ∧ ¬ List.Sorted (fun a b => a ≤ b)
        ((roleEntries [⟨2, "B", "b", none⟩, ⟨9, "A", "a", none⟩]
          [⟨1, 9, 1, none⟩, ⟨1, 2, 2, none⟩] 1).map Prod.snd)
    ∧ (exportFilmDoc
        ⟨[⟨1, "T", 1930, none, []⟩], [⟨2, "B", "b", none⟩, ⟨9, "A", "a", none⟩],
         [⟨1, 9, 1, none⟩, ⟨1, 2, 2, none⟩], [], [], [], []⟩
        ⟨1, "T", 1930, none, []⟩).lookup "directors"
      = some (PyVal.vList
          [PyVal.vObj [("name", PyVal.vStr "B"), ("position", PyVal.vInt 2)],
           PyVal.vObj [("name", PyVal.vStr "A"), ("position", PyVal.vInt 1)]]) := by
  refine ⟨by decide, by decide, ?_⟩
  rfl

/-- C5 (amended): the exported film array lists films sorted ascending by
`(release_year, title)`; within each film the directors, writers and
producers entries appear in the junction-index delivery order (ascending
person id, then position), not necessarily in ascending stored-position
order, since the ORDER BY of the aggregate subquery does not order the
aggregated elements. -/
theorem export_order_amended (db : ExportDB) :
    export_films_normalized db = (exportFilmsOrdered db).map (exportFilmDoc db)
    ∧ List.Sorted filmOrder (exportFilmsOrdered db)
    ∧ (∀ fid, List.Sorted roleIdxLe (roleRowsOrdered db.film_directors fid))
    ∧ (∀ fid, List.Sorted roleIdxLe (roleRowsOrdered db.film_writers fid))
    ∧ (∀ fid, List.Sorted roleIdxLe (roleRowsOrdered db.film_producers fid)) :=
  ⟨rfl, List.sorted_insertionSort filmOrder db.films,
   fun _ => List.sorted_insertionSort roleIdxLe _,
   fun _ => List.sorted_insertionSort roleIdxLe _,
   fun _ => List.sorted_insertionSort roleIdxLe _⟩

/-- When the element at index `i` satisfies the predicate and all earlier
elements fail it, `find?` returns that element. -/
theorem find_eq_of_first {α : Type*} (p : α → Bool) (l : List α) (i : Nat)
    (hi : i < l.length) (h1 : p (l.get ⟨i, hi⟩) = true)
    (h2 : ∀ j (hj : j < l.length), j < i → p (l.get ⟨j, hj⟩) = false) :
    l.find? p = some (l.get ⟨i, hi⟩) := by
  induction l generalizing i with
  | nil => simp at hi
  | cons a t ih =>
    cases i with
    | zero =>
      rw [List.find?_cons]
      simp only [List.get] at h1
      rw [h1]
      rfl
    | succ n =>
      have ha : p a = false := by
        have hz : (0 : Nat) < (a :: t).length := by simp
        have := h2 0 hz (Nat.succ_pos n)
        simpa [List.get] using this
      rw [List.find?_cons, ha]
      have hn : n < t.length := by simpa using hi
      have h1t : p (t.get ⟨n, hn⟩) = true := h1
      have h2t : ∀ j (hj : j < t.length), j < n → p (t.get ⟨j, hj⟩) = false := by
        intro j hj hlt
        exact h2 (j + 1) (by omega) (by omega)
      exact ih n hn h1t h2t

/-- C6: when a subject token has a direct mapping whose target term is in
the controlled vocabulary, the mapper assigns that exact mapping (with
confidence 1) even when regex patterns also match; the patterns are
consulted only when the exact lookup misses, in their list order, taking
the first applicable one. -/
theorem map_subject_exact_priority (controlled : List String)
    (patterns : List MapPattern) (subject : String) :
    (∀ t, direct_mappings.lookup subject = some t → controlled.contains t = true →
      (∃ p ∈ patterns, p.1 (py_lower subject) = true) →
      map_subject controlled patterns subject = some (subject, t, 1))
    ∧ ((match direct_mappings.lookup subject with
        | some t => controlled.contains t
        | none => false) = false →
      ∀ (i : Nat) (hi : i < patterns.length),
        ((patterns.get ⟨i, hi⟩).1 (py_lower subject)
          && controlled.contains (patterns.get ⟨i, hi⟩).2.1) = true →
        (∀ (j : Nat) (hj : j < patterns.length), j < i →
          ((patterns.get ⟨j, hj⟩).1 (py_lower subject)
            && controlled.contains (patterns.get ⟨j, hj⟩).2.1) = false) →
        map_subject controlled patterns subject
          = some (subject, (patterns.get ⟨i, hi⟩).2.1, (patterns.get ⟨i, hi⟩).2.2)) := by
  constructor
  · intro t hd hc _
    have hmem : t ∈ controlled := by simpa using hc
    unfold map_subject
    simp [hd, hmem]
  · intro hmiss i hi h1 h2
    unfold map_subject
    rw [hmiss]
    simp only [Bool.false_eq_true, if_false]
    rw [find_eq_of_first _ patterns i hi h1 h2]

/-- Witness for the mapper priority: a token with both candidate matches
takes the exact one; a token with only pattern matches takes the first
applicable pattern. -/
theorem map_subject_exact_priority_witness :
    map_subject ["Motherhood"] [(fun _ => true, "X", (0.8 : ℚ))] "Mothers"
      = some ("Mothers", "Motherhood", 1)
    ∧ map_subject ["Motherhood"] [(fun _ => true, "X", (0.8 : ℚ)),
        (fun _ => true, "Motherhood", (0.7 : ℚ))] "Unknown Subject"
      = some ("Unknown Subject", "Motherhood", 0.7) := by
  constructor
  · exact (map_subject_exact_priority ["Motherhood"]
      [(fun _ => true, "X", (0.8 : ℚ))] "Mothers").1 "Motherhood" rfl (by decide)
      ⟨(fun _ => true, "X", (0.8 : ℚ)), by simp, rfl⟩
  · have hlen : 1 < ([(fun _ => true, "X", (0.8 : ℚ)),
        (fun _ => true, "Motherhood", (0.7 : ℚ))] : List MapPattern).length := by
      simp
    have h := (map_subject_exact_priority ["Motherhood"]
      [(fun _ => true, "X", (0.8 : ℚ)), (fun _ => true, "Motherhood", (0.7 : ℚ))]
      "Unknown Subject").2 rfl 1 hlen rfl
      (fun j hj hlt => by
        have hj0 : j = 0 := by omega
        subst hj0
        rfl)
    exact h

/-- One map-update of the assignment dict stores the new relevance at the
updated key. -/
theorem lookup_map_set (acc : List (Nat × Nat)) (term rel r : Nat)
    (h : acc.lookup term = some r) :
    (acc.map (fun q => if q.1 == term then (term, rel) else q)).lookup term
      = some rel := by
  induction acc with
  | nil => simp at h
  | cons q rest ih =>
    obtain ⟨k1, v1⟩ := q
    rw [List.lookup_cons] at h
    by_cases hk : (term == k1) = true
    · have hk1 : k1 = term := (beq_iff_eq.mp hk).symm
      subst hk1
      simp [List.lookup_cons]
    · rw [Bool.not_eq_true] at hk
      rw [hk] at h
      simp only [] at h
      have hne1 : ¬ term = k1 := by simpa using hk
      have hk2 : (k1 == term) = false := by
        simp only [beq_eq_false_iff_ne]
        exact fun e => hne1 e.symm
      rw [List.map_cons, List.lookup_cons]
      simp only [hk2, Bool.false_eq_true, if_false, hk]
      exact ih h

/-- C7: the relevance weight is strictly higher when the token recurs in
the subject list of the film or the mapping confidence is at least 0.9
than when neither holds; on repeated matches of the same (film, term)
pair the maximum weight seen is kept, both in the in-memory assignment
dict and on the database-conflict update. -/
theorem relevance_weight_spec :
    (∀ (conf : ℚ) (count : Nat), (count > 1 ∨ conf ≥ 0.9) →
      ∀ (conf2 : ℚ) (count2 : Nat), ¬(count2 > 1) → ¬(conf2 ≥ 0.9) →
        relevance_weight conf2 count2 < relevance_weight conf count)
    ∧ (∀ (acc : List (Nat × Nat)) (term rel : Nat), acc.lookup term = none →
        (assign_term acc term rel).lookup term = some rel)
    ∧ (∀ (acc : List (Nat × Nat)) (term rel r : Nat), acc.lookup term = some r →
        (assign_term acc term rel).lookup term = some (max r rel))
    ∧ (∀ (tbl : List SubjectAssoc) (film term rel : Nat) (row : SubjectAssoc),
        row ∈ tbl → row.film_id = film → row.term_id = term →
        { row with relevance_weight := max row.relevance_weight rel }
          ∈ upsert_film_subject tbl film term rel) := by
  refine ⟨?_, ?_, ?_, ?_⟩
  · intro conf count h conf2 count2 h2 h3
    have hr2 : relevance_weight conf2 count2 = 1 := by
      unfold relevance_weight
      rw [if_neg h3, if_neg h2]
    have hr1 : 2 ≤ relevance_weight conf count := by
      unfold relevance_weight
      by_cases hc : conf ≥ (0.9 : ℚ)
      · rw [if_pos hc]
        split_ifs <;> omega
      · rw [if_neg hc, if_pos (h.resolve_right hc)]
    omega
  · intro acc term rel h
    have e : assign_term acc term rel = acc ++ [(term, rel)] := by
      unfold assign_term
      rw [h]
    rw [e, List.lookup_append, h]
    simp [List.lookup_cons]
  · intro acc term rel r h
    have e : assign_term acc term rel
        = if r < rel then acc.map (fun q => if q.1 == term then (term, rel) else q)
          else acc := by
      unfold assign_term
      rw [h]
    rw [e]
    by_cases hlt : r < rel
    · rw [if_pos hlt, lookup_map_set acc term rel r h, Nat.max_eq_right hlt.le]
    · rw [if_neg hlt, h, Nat.max_eq_left (Nat.le_of_not_lt hlt)]
  · intro tbl film term rel row hmem h1 h2
    unfold upsert_film_subject
    have hany : tbl.any (fun r => r.film_id == film && r.term_id == term) = true :=
      List.any_eq_true.mpr ⟨row, hmem, by simp [h1, h2]⟩
    rw [if_pos hany]
    refine List.mem_map.mpr ⟨row, hmem, ?_⟩
    simp [h1, h2]

/-- Witness for the relevance-weight behaviour at concrete inputs. -/
theorem relevance_weight_spec_witness :
    relevance_weight (0.5 : ℚ) 1 < relevance_weight (1 : ℚ) 2
    ∧ (assign_term [] 4 2).lookup 4 = some 2
    ∧ (assign_term [(4, 2)] 4 3).lookup 4 = some (max 2 3)
    ∧ (⟨9, 4, max 2 3, "auto_mapped"⟩ : SubjectAssoc)
        ∈ upsert_film_subject [⟨9, 4, 2, "auto_mapped"⟩] 9 4 3 := by
  refine ⟨?_, ?_, ?_, ?_⟩
  · exact relevance_weight_spec.1 1 2 (Or.inl (by omega)) 0.5 1 (by omega) (by norm_num)
  · exact relevance_weight_spec.2.1 [] 4 2 rfl
  · exact relevance_weight_spec.2.2.1 [(4, 2)] 4 3 2 rfl
  · exact relevance_weight_spec.2.2.2 [⟨9, 4, 2, "auto_mapped"⟩] 9 4 3
      ⟨9, 4, 2, "auto_mapped"⟩ (List.mem_singleton.mpr rfl) rfl rfl

/-- C8 counterexample: the extractor accepts a result whose stored title
is not string-equal to the target (it differs in case), so data is
returned although no result title equals the target title. -/
theorem extract_film_data_title_counterexample :
    (extract_film_data
      (some [⟨[("MovieName", PyVal.vStr "RAMONA"),
               ("ReleaseYear", PyVal.vStr "1928")]⟩])
      "Ramona" 1928).isSome = true
    ∧ doc_get_str [("MovieName", PyVal.vStr "RAMONA"),
        ("ReleaseYear", PyVal.vStr "1928")] "MovieName" "" ≠ "Ramona" := by
  constructor
  · rfl
  · decide

/-- C8 (amended): the extractor returns film data iff some result title
equals the target title after stripping and lowercasing and its year
parses to an integer equal to the target year; when it returns `none`
(including a malformed search response) the collection step stores
nothing. -/
theorem extract_film_data_match_iff (results : List SearchResult) (t : String)
    (y : Int) :
    ((extract_film_data (some results) t y).isSome = true ↔
      ∃ r ∈ results,
        title_norm (doc_get_str r.Document "MovieName" "") = title_norm t
        ∧ py_int? (doc_get_str r.Document "ReleaseYear" "") = some y)
    ∧ (extract_film_data (some results) t y = none →
        ∀ db : AFIDB, collect_step db (some results) t y = db)
    ∧ (∀ db : AFIDB, collect_step db none t y = db) := by
  refine ⟨?_, ?_, ?_⟩
  · have hiso : (extract_film_data (some results) t y).isSome
        = (results.find? (match_result t y)).isSome := by
      show (match results.find? (match_result t y) with
        | some r => some (extract_fields r.Document)
        | none => (none : Option (List (String × PyVal)))).isSome
        = (results.find? (match_result t y)).isSome
      rcases results.find? (match_result t y) with _ | r <;> rfl
    rw [hiso, List.find?_isSome]
    constructor
    · rintro ⟨r, hr, hp⟩
      rw [match_result, Bool.and_eq_true] at hp
      obtain ⟨hp1, hp2⟩ := hp
      refine ⟨r, hr, by simpa using hp1, ?_⟩
      rcases hy : py_int? (doc_get_str r.Document "ReleaseYear" "") with _ | y1
      · rw [hy] at hp2; simp at hp2
      · rw [hy] at hp2
        simp only [beq_iff_eq] at hp2
        rw [hp2]
    · rintro ⟨r, hr, h1, h2⟩
      refine ⟨r, hr, ?_⟩
      rw [match_result, h2]
      simp [h1]
  · intro h db
    unfold collect_step
    rw [h]
  · intro db
    rfl

/-- Witness for the no-match path: an empty result list stores nothing. -/
theorem extract_film_data_match_iff_witness :
    collect_step ⟨[], [], 0⟩ (some []) "X" 1900 = ⟨[], [], 0⟩ :=
  (extract_film_data_match_iff [] "X" 1900).2.1 rfl ⟨[], [], 0⟩

/-- C9: with the default dry run (no apply flag) the cleaning script
leaves every row of the films table unchanged; it only computes and
counts the changes it would make. -/
theorem clean_database_dry_run (films : List CFilm) :
    (clean_database films true).1 = films
    ∧ (clean_database films true).2 = (compute_changes films).length :=
  ⟨rfl, rfl⟩

end Holreg
